import Mathlib

/-!
Verification of the session-connection core of webtransport-go (src/conn.go).

The Go file is embedded shallowly: the mutable fields of the Go struct
Conn become a Lean structure ConnState, each Go method becomes a pure
function from a ConnState (plus the inputs the method reads from its
environment, such as the result of a transport open call or the bytes
read from the control stream) to its results and the updated state.
Concurrency is modelled by a step relation whose steps are the public
operations; the blocking select inside the accept calls is modelled by an
oracle (a list of wake events) saying which enabled select case fires
each time the call blocks.
-/

namespace WebTransport

/-- Model of the Go error values that can flow through this package:
the two context errors, io.EOF, opaque transport failures (indexed by a
code), and errors built by fmt.Errorf with a message and a wrapped cause. -/
inductive GoError where
  | ctxCanceled : GoError
  | ctxDeadlineExceeded : GoError
  | eof : GoError
  | transport : Nat → GoError
  | wrapped : String → GoError → GoError
  deriving DecidableEq

/-- Error message of a Go error; fmt.Errorf with a %w verb concatenates
the format text in front of the wrapped error's message. -/
def goErrorMessage : GoError → String
  | GoError.ctxCanceled => "context canceled"
  | GoError.ctxDeadlineExceeded => "context deadline exceeded"
  | GoError.eof => "EOF"
  | GoError.transport n => "transport " ++ toString n
  | GoError.wrapped msg inner => msg ++ goErrorMessage inner

/-- Result of errors.Unwrap: only errors built with a %w verb expose a cause. -/
def unwrapGoError : GoError → Option GoError
  | GoError.wrapped _ inner => some inner
  | _ => none

/-- Bounds of the QUIC variable-length integer encoding (quicvarint). -/
def maxVarInt1 : Nat := 63
def maxVarInt2 : Nat := 16383
def maxVarInt4 : Nat := 1073741823
def maxVarInt8 : Nat := 4611686018427387903

/-- Embedding of quicvarint.Write: the byte sequence appended to the buffer
for a value i. Values of 63 or less take one byte, then two, four or eight
bytes with the two top bits of the first byte set to 00, 01, 10, 11.
Returns none where the Go function panics (i above 2^62 - 1). -/
def quicvarintWrite (i : Nat) : Option (List Nat) :=
  if i ≤ maxVarInt1 then some [i % 256]
  else if i ≤ maxVarInt2 then some [(i / 256) % 256 ||| 64, i % 256]
  else if i ≤ maxVarInt4 then
    some [(i / 16777216) % 256 ||| 128, (i / 65536) % 256,
          (i / 256) % 256, i % 256]
  else if i ≤ maxVarInt8 then
    some [(i / 72057594037927936) % 256 ||| 192, (i / 281474976710656) % 256,
          (i / 1099511627776) % 256, (i / 4294967296) % 256,
          (i / 16777216) % 256, (i / 65536) % 256, (i / 256) % 256, i % 256]
  else none

/-- Modelled from the spec: the stream-type tag for bidirectional streams
(the constant webTransportFrameType, declared in a repository file outside
src/; the spec requires only that the two tags are distinct constants
agreed with the peer). -/
def webTransportFrameType : Nat := 65

/-- Modelled from the spec: the stream-type tag for unidirectional streams
(the constant webTransportUniStreamType, declared in a repository file
outside src/). -/
def webTransportUniStreamType : Nat := 84

/-- A wrapped stream as handed to the application: the raw transport stream
(modelled by an identifier) plus the header the wrapper will transmit
before any payload; newStream(str, nil) gives hdr none. -/
structure WStream where
  raw : Nat
  hdr : Option (List Nat)
  deriving DecidableEq

/-- State of the Go struct Conn: the session identifier, the two
precomputed header byte sequences, the lifetime context (ctxDone true
once ctxCancel ran), the terminal error (nil modelled as none), the
closed channel (closed true once close(c.closed) ran), and for each
direction the capacity-1 notification channel (true when it holds a
token) and the accept queue of raw streams. -/
structure ConnState where
  sessionID : Nat
  streamHdr : List Nat
  uniStreamHdr : List Nat
  ctxDone : Bool
  closeErr : Option GoError
  closed : Bool
  acceptChan : Bool
  acceptQueue : List Nat
  acceptUniChan : Bool
  acceptUniQueue : List Nat
  deriving DecidableEq

/-- Embedding of newConn: precompute the unidirectional header
(varint of the uni tag, then varint of the session id) and the
bidirectional header (varint of the frame-type tag, then varint of the
session id); all channels start empty, the queues start empty, the
session starts open. Returns none where quicvarint.Write would panic. -/
def newConn (sessionID : Nat) : Option ConnState :=
  match quicvarintWrite webTransportUniStreamType,
        quicvarintWrite webTransportFrameType,
        quicvarintWrite sessionID with
  | some tagUni, some tagBidi, some sid =>
      some { sessionID := sessionID
             streamHdr := tagBidi ++ sid
             uniStreamHdr := tagUni ++ sid
             ctxDone := false
             closeErr := none
             closed := false
             acceptChan := false
             acceptQueue := []
             acceptUniChan := false
             acceptUniQueue := [] }
  | _, _, _ => none

/-- Message prefix of the terminal error set by handleConn. -/
def sessionClosedPfx : String := "WebTransport session closed: "

/-- Embedding of handleConn together with the deferred ctxCancel of
newConn: the loop reads from the control stream; each read yields data
and a possible error. Reads without error are discarded and the loop
continues; on the first read error e the loop sets closeErr to the
wrap of e, closes the closed channel and returns, upon which the
deferred ctxCancel marks the lifetime context done. The argument lists
the successive read results; an empty list means the goroutine is still
blocked in Read and the state is unchanged. -/
def handleConn (c : ConnState) : List (List Nat × Option GoError) → ConnState
  | [] => c
  | (_, none) :: rest => handleConn c rest
  | (_, some e) :: _ =>
      { c with closeErr := some (GoError.wrapped sessionClosedPfx e)
               closed := true
               ctxDone := true }

/-- Embedding of isClosed: a non-blocking receive on the closed channel. -/
def isClosed (c : ConnState) : Bool := c.closed

/-- Embedding of addStream: under the mutex, append the raw stream to the
accept queue, then perform a non-blocking send on the capacity-1
notification channel (the channel ends up holding a token whether or not
it already held one). -/
def addStream (c : ConnState) (str : Nat) : ConnState :=
  { c with acceptQueue := c.acceptQueue ++ [str], acceptChan := true }

/-- Embedding of addUniStream, the unidirectional twin of addStream. -/
def addUniStream (c : ConnState) (str : Nat) : ConnState :=
  { c with acceptUniQueue := c.acceptUniQueue ++ [str], acceptUniChan := true }

/-- Oracle for the blocking select in the accept calls: which of the
three cases fires when the call suspends. -/
inductive Wake where
  | sessionDone : Wake
  | callerCancel : Wake
  | notify : Wake
  deriving DecidableEq

/-- Non-blocking part of AcceptStream, exactly the code before the
select: the isClosed check (a closed session returns its terminal
error at once), then the dequeue of the queue head under the mutex.
Returns none when the call would go on to block in the select. -/
def acceptNow (c : ConnState) :
    Option ((Option WStream × Option GoError) × ConnState) :=
  if isClosed c then some ((none, c.closeErr), c)
  else
    match c.acceptQueue with
    | str :: rest =>
        some ((some { raw := str, hdr := none }, none),
              { c with acceptQueue := rest })
    | [] => none

/-- Embedding of AcceptStream. callerErr is the value the caller-supplied
context's Err() returns once that context is done (by the context
contract it is non-nil, so it is a plain GoError). The wake list says
which select case fires each time the call blocks; sessionDone and
notify may only fire when the corresponding channel is ready, and the
notify case drains the notification token and re-invokes AcceptStream,
as in the source. The result is none when the call is still blocked
(or the oracle named a case that is not ready). -/
def AcceptStream (callerErr : GoError) :
    ConnState → List Wake → Option ((Option WStream × Option GoError) × ConnState)
  | c, [] => acceptNow c
  | c, w :: ws =>
    match acceptNow c with
    | some r => some r
    | none =>
      match w with
      | Wake.sessionDone =>
          if c.ctxDone then some ((none, c.closeErr), c) else none
      | Wake.callerCancel => some ((none, some callerErr), c)
      | Wake.notify =>
          if c.acceptChan then
            AcceptStream callerErr { c with acceptChan := false } ws
          else none

/-- Non-blocking part of AcceptUniStream; newReceiveStream attaches no
header, so a dequeued stream is returned raw. -/
def acceptUniNow (c : ConnState) :
    Option ((Option Nat × Option GoError) × ConnState) :=
  if isClosed c then some ((none, c.closeErr), c)
  else
    match c.acceptUniQueue with
    | str :: rest =>
        some ((some str, none), { c with acceptUniQueue := rest })
    | [] => none

/-- Embedding of AcceptUniStream, the unidirectional twin of AcceptStream. -/
def AcceptUniStream (callerErr : GoError) :
    ConnState → List Wake → Option ((Option Nat × Option GoError) × ConnState)
  | c, [] => acceptUniNow c
  | c, w :: ws =>
    match acceptUniNow c with
    | some r => some r
    | none =>
      match w with
      | Wake.sessionDone =>
          if c.ctxDone then some ((none, c.closeErr), c) else none
      | Wake.callerCancel => some ((none, some callerErr), c)
      | Wake.notify =>
          if c.acceptUniChan then
            AcceptUniStream callerErr { c with acceptUniChan := false } ws
          else none

/-- Embedding of OpenStream: transport is the result of
qconn.OpenStream(). The state is not modified. -/
def OpenStream (c : ConnState) (transport : Except GoError Nat) :
    Option WStream × Option GoError :=
  if isClosed c then (none, c.closeErr)
  else
    match transport with
    | Except.error e => (none, some e)
    | Except.ok str => (some { raw := str, hdr := some c.streamHdr }, none)

/-- Embedding of OpenStreamSync: transport is the result of
qconn.OpenStreamSync(ctx), which already accounts for the caller's
cancellation. -/
def OpenStreamSync (c : ConnState) (transport : Except GoError Nat) :
    Option WStream × Option GoError :=
  if isClosed c then (none, c.closeErr)
  else
    match transport with
    | Except.error e => (none, some e)
    | Except.ok str => (some { raw := str, hdr := some c.streamHdr }, none)

/-- Embedding of OpenUniStream: on success the send stream carries the
unidirectional header. -/
def OpenUniStream (c : ConnState) (transport : Except GoError Nat) :
    Option WStream × Option GoError :=
  if isClosed c then (none, c.closeErr)
  else
    match transport with
    | Except.error e => (none, some e)
    | Except.ok str => (some { raw := str, hdr := some c.uniStreamHdr }, none)

/-- Embedding of OpenUniStreamSync. -/
def OpenUniStreamSync (c : ConnState) (transport : Except GoError Nat) :
    Option WStream × Option GoError :=
  if isClosed c then (none, c.closeErr)
  else
    match transport with
    | Except.error e => (none, some e)
    | Except.ok str => (some { raw := str, hdr := some c.uniStreamHdr }, none)

/-- Embedding of Close: the method body is a single return nil; it
touches no field of the connection. -/
def Close (c : ConnState) : Option GoError × ConnState := (none, c)

/-- Step relation of the session: each step is one invocation of an
operation of conn.go. The monitor step requires the closed channel not
to be closed yet because the handleConn goroutine runs once and returns
right after closing it. -/
inductive Step : ConnState → ConnState → Prop where
  | add (c : ConnState) (str : Nat) : Step c (addStream c str)
  | addUni (c : ConnState) (str : Nat) : Step c (addUniStream c str)
  | accept (c : ConnState) (ce : GoError) (wakes : List Wake)
      (r : Option WStream × Option GoError) (c' : ConnState)
      (h : AcceptStream ce c wakes = some (r, c')) : Step c c'
  | acceptUni (c : ConnState) (ce : GoError) (wakes : List Wake)
      (r : Option Nat × Option GoError) (c' : ConnState)
      (h : AcceptUniStream ce c wakes = some (r, c')) : Step c c'
  | openOp (c : ConnState) : Step c c
  | closeCall (c : ConnState) : Step c (Close c).2
  | monitor (c : ConnState) (reads : List (List Nat × Option GoError))
      (h : c.closed = false) : Step c (handleConn c reads)

/-- Reachability: states produced from a fresh connection by the step
relation. -/
def Reachable (c : ConnState) : Prop :=
  ∃ sid c₀, newConn sid = some c₀ ∧ Relation.ReflTransGen Step c₀ c

/-- Concrete connection state of a fresh session with identifier 17
(the identifier used by the scenario in the spec). -/
def conn17 : ConnState :=
  { sessionID := 17
    streamHdr := [64, 65, 17]
    uniStreamHdr := [64, 84, 17]
    ctxDone := false
    closeErr := none
    closed := false
    acceptChan := false
    acceptQueue := []
    acceptUniChan := false
    acceptUniQueue := [] }

/-- State invariant: the closed channel is only ever closed with a
terminal error already recorded, and the lifetime context is only
cancelled after the closed channel was closed (handleConn assigns
closeErr, then closes the channel, then its deferred ctxCancel runs). -/
def Inv (c : ConnState) : Prop :=
  (c.closed = true → c.closeErr.isSome = true) ∧
  (c.ctxDone = true → c.closed = true)

/-- Sequence of addStream calls, one per raw stream, in list order. -/
def addStreams (c : ConnState) (strs : List Nat) : ConnState :=
  strs.foldl addStream c

/-- Sequence of addUniStream calls, one per raw stream, in list order. -/
def addUniStreams (c : ConnState) (strs : List Nat) : ConnState :=
  strs.foldl addUniStream c

/-- Harness for a sequence of n AcceptStream calls made with no wake
oracle (each call takes its fast path), collecting the streams the calls
delivered and threading the state. -/
def acceptLoop (ce : GoError) : Nat → ConnState → List WStream × ConnState
  | 0, c => ([], c)
  | Nat.succ n, c =>
    match AcceptStream ce c [] with
    | some ((some s, _), c') =>
        let r := acceptLoop ce n c'
        (s :: r.1, r.2)
    | some ((none, _), c') => acceptLoop ce n c'
    | none => ([], c)

/-- Unidirectional twin of acceptLoop. -/
def acceptUniLoop (ce : GoError) : Nat → ConnState → List Nat × ConnState
  | 0, c => ([], c)
  | Nat.succ n, c =>
    match AcceptUniStream ce c [] with
    | some ((some s, _), c') =>
        let r := acceptUniLoop ce n c'
        (s :: r.1, r.2)
    | some ((none, _), c') => acceptUniLoop ce n c'
    | none => ([], c)

/-- Unfolding of AcceptStream with no wake event. -/
theorem AcceptStream_nil (ce : GoError) (c : ConnState) :
    AcceptStream ce c [] = acceptNow c := rfl

/-- Unfolding of AcceptStream with a wake event available. -/
theorem AcceptStream_cons (ce : GoError) (c : ConnState) (w : Wake)
    (ws : List Wake) :
    AcceptStream ce c (w :: ws) =
      match acceptNow c with
      | some r => some r
      | none =>
        match w with
        | Wake.sessionDone =>
            if c.ctxDone then some ((none, c.closeErr), c) else none
        | Wake.callerCancel => some ((none, some ce), c)
        | Wake.notify =>
            if c.acceptChan then
              AcceptStream ce { c with acceptChan := false } ws
            else none := rfl

/-- Unfolding of AcceptUniStream with no wake event. -/
theorem AcceptUniStream_nil (ce : GoError) (c : ConnState) :
    AcceptUniStream ce c [] = acceptUniNow c := rfl

/-- Unfolding of AcceptUniStream with a wake event available. -/
theorem AcceptUniStream_cons (ce : GoError) (c : ConnState) (w : Wake)
    (ws : List Wake) :
    AcceptUniStream ce c (w :: ws) =
      match acceptUniNow c with
      | some r => some r
      | none =>
        match w with
        | Wake.sessionDone =>
            if c.ctxDone then some ((none, c.closeErr), c) else none
        | Wake.callerCancel => some ((none, some ce), c)
        | Wake.notify =>
            if c.acceptUniChan then
              AcceptUniStream ce { c with acceptUniChan := false } ws
            else none := rfl

/-- The non-blocking phase touches only the bidirectional queue. -/
theorem acceptNow_fields {c : ConnState}
    {r : Option WStream × Option GoError} {c' : ConnState}
    (h : acceptNow c = some (r, c')) :
    c'.closed = c.closed ∧ c'.closeErr = c.closeErr ∧ c'.ctxDone = c.ctxDone ∧
    c'.streamHdr = c.streamHdr ∧ c'.uniStreamHdr = c.uniStreamHdr ∧
    c'.sessionID = c.sessionID ∧ c'.acceptUniQueue = c.acceptUniQueue ∧
    c'.acceptUniChan = c.acceptUniChan ∧ c'.acceptChan = c.acceptChan := by
  unfold acceptNow at h
  split at h
  · simp only [Option.some.injEq, Prod.mk.injEq] at h
    simp [← h.2]
  · split at h
    · simp only [Option.some.injEq, Prod.mk.injEq] at h
      simp [← h.2]
    · exact absurd h (by simp)

/-- Unidirectional twin of acceptNow_fields. -/
theorem acceptUniNow_fields {c : ConnState}
    {r : Option Nat × Option GoError} {c' : ConnState}
    (h : acceptUniNow c = some (r, c')) :
    c'.closed = c.closed ∧ c'.closeErr = c.closeErr ∧ c'.ctxDone = c.ctxDone ∧
    c'.streamHdr = c.streamHdr ∧ c'.uniStreamHdr = c.uniStreamHdr ∧
    c'.sessionID = c.sessionID ∧ c'.acceptQueue = c.acceptQueue ∧
    c'.acceptChan = c.acceptChan ∧ c'.acceptUniChan = c.acceptUniChan := by
  unfold acceptUniNow at h
  split at h
  · simp only [Option.some.injEq, Prod.mk.injEq] at h
    simp [← h.2]
  · split at h
    · simp only [Option.some.injEq, Prod.mk.injEq] at h
      simp [← h.2]
    · exact absurd h (by simp)

/-- Reduction of a blocking AcceptStream call when the non-blocking
phase found nothing and the session-closed select case fires. -/
theorem AcceptStream_blockedDone (ce : GoError) (c : ConnState)
    (ws : List Wake) (hn : acceptNow c = none) :
    AcceptStream ce c (Wake.sessionDone :: ws) =
      if c.ctxDone then some ((none, c.closeErr), c) else none := by
  rw [AcceptStream_cons, hn]

/-- Reduction of a blocking AcceptStream call when the caller's own
cancellation fires: the call returns the caller's context error. -/
theorem AcceptStream_blockedCancel (ce : GoError) (c : ConnState)
    (ws : List Wake) (hn : acceptNow c = none) :
    AcceptStream ce c (Wake.callerCancel :: ws) = some ((none, some ce), c) := by
  rw [AcceptStream_cons, hn]

/-- Reduction of a blocking AcceptStream call when the notification
channel fires: drain the token and retry. -/
theorem AcceptStream_blockedNotify (ce : GoError) (c : ConnState)
    (ws : List Wake) (hn : acceptNow c = none) :
    AcceptStream ce c (Wake.notify :: ws) =
      if c.acceptChan then AcceptStream ce { c with acceptChan := false } ws
      else none := by
  rw [AcceptStream_cons, hn]

/-- When the non-blocking phase already found an answer, the wake list
is irrelevant. -/
theorem AcceptStream_now (ce : GoError) (c : ConnState) (w : Wake)
    (ws : List Wake) (r : (Option WStream × Option GoError) × ConnState)
    (hn : acceptNow c = some r) :
    AcceptStream ce c (w :: ws) = some r := by
  rw [AcceptStream_cons, hn]

/-- Accepting touches only the bidirectional queue and its notification
channel: every other field survives an AcceptStream call unchanged. -/
theorem AcceptStream_fields {ce : GoError} {wakes : List Wake} {c : ConnState}
    {r : Option WStream × Option GoError} {c' : ConnState}
    (h : AcceptStream ce c wakes = some (r, c')) :
    c'.closed = c.closed ∧ c'.closeErr = c.closeErr ∧ c'.ctxDone = c.ctxDone ∧
    c'.streamHdr = c.streamHdr ∧ c'.uniStreamHdr = c.uniStreamHdr ∧
    c'.sessionID = c.sessionID ∧ c'.acceptUniQueue = c.acceptUniQueue ∧
    c'.acceptUniChan = c.acceptUniChan := by
  induction wakes generalizing c with
  | nil =>
    rw [AcceptStream_nil] at h
    obtain ⟨h1, h2, h3, h4, h5, h6, h7, h8, -⟩ := acceptNow_fields h
    exact ⟨h1, h2, h3, h4, h5, h6, h7, h8⟩
  | cons w ws ih =>
    cases hn : acceptNow c with
    | some r0 =>
      rw [AcceptStream_now ce c w ws r0 hn] at h
      simp only [Option.some.injEq] at h
      rw [h] at hn
      obtain ⟨h1, h2, h3, h4, h5, h6, h7, h8, -⟩ := acceptNow_fields hn
      exact ⟨h1, h2, h3, h4, h5, h6, h7, h8⟩
    | none =>
      cases w with
      | sessionDone =>
        rw [AcceptStream_blockedDone ce c ws hn] at h
        split at h
        · simp only [Option.some.injEq, Prod.mk.injEq] at h
          simp [← h.2]
        · exact absurd h (by simp)
      | callerCancel =>
        rw [AcceptStream_blockedCancel ce c ws hn] at h
        simp only [Option.some.injEq, Prod.mk.injEq] at h
        simp [← h.2]
      | notify =>
        rw [AcceptStream_blockedNotify ce c ws hn] at h
        split at h
        · have hh := ih h
          exact hh
        · exact absurd h (by simp)

/-- Unidirectional twins of the AcceptStream reduction lemmas. -/
theorem AcceptUniStream_blockedDone (ce : GoError) (c : ConnState)
    (ws : List Wake) (hn : acceptUniNow c = none) :
    AcceptUniStream ce c (Wake.sessionDone :: ws) =
      if c.ctxDone then some ((none, c.closeErr), c) else none := by
  rw [AcceptUniStream_cons, hn]

/-- Caller cancellation of a blocked AcceptUniStream call. -/
theorem AcceptUniStream_blockedCancel (ce : GoError) (c : ConnState)
    (ws : List Wake) (hn : acceptUniNow c = none) :
    AcceptUniStream ce c (Wake.callerCancel :: ws) =
      some ((none, some ce), c) := by
  rw [AcceptUniStream_cons, hn]

/-- Notification wake of a blocked AcceptUniStream call. -/
theorem AcceptUniStream_blockedNotify (ce : GoError) (c : ConnState)
    (ws : List Wake) (hn : acceptUniNow c = none) :
    AcceptUniStream ce c (Wake.notify :: ws) =
      if c.acceptUniChan then
        AcceptUniStream ce { c with acceptUniChan := false } ws
      else none := by
  rw [AcceptUniStream_cons, hn]

/-- When the non-blocking phase already found an answer, the wake list
is irrelevant (unidirectional). -/
theorem AcceptUniStream_now (ce : GoError) (c : ConnState) (w : Wake)
    (ws : List Wake) (r : (Option Nat × Option GoError) × ConnState)
    (hn : acceptUniNow c = some r) :
    AcceptUniStream ce c (w :: ws) = some r := by
  rw [AcceptUniStream_cons, hn]

/-- Unidirectional twin of AcceptStream_fields. -/
theorem AcceptUniStream_fields {ce : GoError} {wakes : List Wake} {c : ConnState}
    {r : Option Nat × Option GoError} {c' : ConnState}
    (h : AcceptUniStream ce c wakes = some (r, c')) :
    c'.closed = c.closed ∧ c'.closeErr = c.closeErr ∧ c'.ctxDone = c.ctxDone ∧
    c'.streamHdr = c.streamHdr ∧ c'.uniStreamHdr = c.uniStreamHdr ∧
    c'.sessionID = c.sessionID ∧ c'.acceptQueue = c.acceptQueue ∧
    c'.acceptChan = c.acceptChan := by
  induction wakes generalizing c with
  | nil =>
    rw [AcceptUniStream_nil] at h
    obtain ⟨h1, h2, h3, h4, h5, h6, h7, h8, -⟩ := acceptUniNow_fields h
    exact ⟨h1, h2, h3, h4, h5, h6, h7, h8⟩
  | cons w ws ih =>
    cases hn : acceptUniNow c with
    | some r0 =>
      rw [AcceptUniStream_now ce c w ws r0 hn] at h
      simp only [Option.some.injEq] at h
      rw [h] at hn
      obtain ⟨h1, h2, h3, h4, h5, h6, h7, h8, -⟩ := acceptUniNow_fields hn
      exact ⟨h1, h2, h3, h4, h5, h6, h7, h8⟩
    | none =>
      cases w with
      | sessionDone =>
        rw [AcceptUniStream_blockedDone ce c ws hn] at h
        split at h
        · simp only [Option.some.injEq, Prod.mk.injEq] at h
          simp [← h.2]
        · exact absurd h (by simp)
      | callerCancel =>
        rw [AcceptUniStream_blockedCancel ce c ws hn] at h
        simp only [Option.some.injEq, Prod.mk.injEq] at h
        simp [← h.2]
      | notify =>
        rw [AcceptUniStream_blockedNotify ce c ws hn] at h
        split at h
        · have hh := ih h
          exact hh
        · exact absurd h (by simp)

/-- Running the monitor either leaves the state alone (no read error
yet) or records a wrapped terminal error, closes the closed channel and
marks the context done, all at once. -/
theorem handleConn_eq (c : ConnState) (reads : List (List Nat × Option GoError)) :
    handleConn c reads = c ∨ ∃ e, handleConn c reads =
      { c with closeErr := some (GoError.wrapped sessionClosedPfx e)
               closed := true
               ctxDone := true } := by
  induction reads with
  | nil => exact Or.inl rfl
  | cons p rest ih =>
    obtain ⟨b, oe⟩ := p
    cases oe with
    | none => exact ih
    | some e => exact Or.inr ⟨e, rfl⟩

/-- Reading any number of clean buffers and then hitting a read error
produces exactly the terminal state. -/
theorem handleConn_error (c : ConnState) (bufs : List (List Nat)) (b : List Nat)
    (e : GoError) :
    handleConn c (bufs.map (fun x => (x, none)) ++ [(b, some e)]) =
      { c with closeErr := some (GoError.wrapped sessionClosedPfx e)
               closed := true
               ctxDone := true } := by
  induction bufs with
  | nil => rfl
  | cons x xs ih => exact ih

/-- A fresh connection starts open, with no terminal error, live
context, empty queues and empty notification channels, and its two
headers are the varint of the direction tag followed by the varint of
the session identifier. -/
theorem newConn_fields {sid : Nat} {c : ConnState} (h : newConn sid = some c) :
    c.sessionID = sid ∧ c.ctxDone = false ∧ c.closeErr = none ∧ c.closed = false ∧
    c.acceptChan = false ∧ c.acceptQueue = [] ∧ c.acceptUniChan = false ∧
    c.acceptUniQueue = [] ∧
    ∃ ts, quicvarintWrite sid = some ts ∧
      c.streamHdr = [64, 65] ++ ts ∧ c.uniStreamHdr = [64, 84] ++ ts := by
  have hu : quicvarintWrite webTransportUniStreamType = some [64, 84] := by decide
  have hb : quicvarintWrite webTransportFrameType = some [64, 65] := by decide
  rw [newConn, hu, hb] at h
  cases hs : quicvarintWrite sid with
  | none => rw [hs] at h; exact absurd h (by simp)
  | some ts =>
    rw [hs] at h
    simp only [Option.some.injEq] at h
    subst h
    exact ⟨rfl, rfl, rfl, rfl, rfl, rfl, rfl, rfl, ts, rfl, rfl, rfl⟩

/-- Every step of the session preserves the invariant. -/
theorem Step_inv {c c' : ConnState} (h : Step c c') (hi : Inv c) : Inv c' := by
  cases h with
  | add str => exact ⟨hi.1, hi.2⟩
  | addUni str => exact ⟨hi.1, hi.2⟩
  | accept ce wakes r c' hacc =>
    obtain ⟨h1, h2, h3, -⟩ := AcceptStream_fields hacc
    exact ⟨by rw [h1, h2]; exact hi.1, by rw [h1, h3]; exact hi.2⟩
  | acceptUni ce wakes r c' hacc =>
    obtain ⟨h1, h2, h3, -⟩ := AcceptUniStream_fields hacc
    exact ⟨by rw [h1, h2]; exact hi.1, by rw [h1, h3]; exact hi.2⟩
  | openOp => exact hi
  | closeCall => exact hi
  | monitor reads hop =>
    rcases handleConn_eq c reads with he | ⟨e, he⟩
    · rw [he]; exact hi
    · rw [he]; exact ⟨fun _ => rfl, fun _ => rfl⟩

/-- On a closed session the non-blocking phase returns the terminal
error at once, before even looking at the queue. -/
theorem acceptNow_closed {c : ConnState} (h : c.closed = true) :
    acceptNow c = some ((none, c.closeErr), c) := by
  simp [acceptNow, isClosed, h]

/-- On an open session with an empty queue the non-blocking phase finds
nothing and the call goes on to block. -/
theorem acceptNow_blocked {c : ConnState} (h1 : c.closed = false)
    (h2 : c.acceptQueue = []) : acceptNow c = none := by
  simp [acceptNow, isClosed, h1, h2]

/-- On an open session with a non-empty queue the non-blocking phase
pops the head. -/
theorem acceptNow_pop {c : ConnState} {str : Nat} {rest : List Nat}
    (h1 : c.closed = false) (h2 : c.acceptQueue = str :: rest) :
    acceptNow c = some ((some { raw := str, hdr := none }, none),
      { c with acceptQueue := rest }) := by
  simp [acceptNow, isClosed, h1, h2]

/-- Unidirectional twin of acceptNow_closed. -/
theorem acceptUniNow_closed {c : ConnState} (h : c.closed = true) :
    acceptUniNow c = some ((none, c.closeErr), c) := by
  simp [acceptUniNow, isClosed, h]

/-- Unidirectional twin of acceptNow_blocked. -/
theorem acceptUniNow_blocked {c : ConnState} (h1 : c.closed = false)
    (h2 : c.acceptUniQueue = []) : acceptUniNow c = none := by
  simp [acceptUniNow, isClosed, h1, h2]

/-- Unidirectional twin of acceptNow_pop. -/
theorem acceptUniNow_pop {c : ConnState} {str : Nat} {rest : List Nat}
    (h1 : c.closed = false) (h2 : c.acceptUniQueue = str :: rest) :
    acceptUniNow c = some ((some str, none),
      { c with acceptUniQueue := rest }) := by
  simp [acceptUniNow, isClosed, h1, h2]

/-- On a closed session AcceptStream returns the terminal error no
matter which wake events would be available. -/
theorem AcceptStream_ofClosed {c : ConnState} (ce : GoError)
    (wakes : List Wake) (h : c.closed = true) :
    AcceptStream ce c wakes = some ((none, c.closeErr), c) := by
  cases wakes with
  | nil => rw [AcceptStream_nil, acceptNow_closed h]
  | cons w ws => rw [AcceptStream_now ce c w ws _ (acceptNow_closed h)]

/-- Unidirectional twin of AcceptStream_ofClosed. -/
theorem AcceptUniStream_ofClosed {c : ConnState} (ce : GoError)
    (wakes : List Wake) (h : c.closed = true) :
    AcceptUniStream ce c wakes = some ((none, c.closeErr), c) := by
  cases wakes with
  | nil => rw [AcceptUniStream_nil, acceptUniNow_closed h]
  | cons w ws => rw [AcceptUniStream_now ce c w ws _ (acceptUniNow_closed h)]

/-- A successful OpenStream carries exactly the precomputed
bidirectional header of the state it was called on. -/
theorem OpenStream_some {c : ConnState} {tr : Except GoError Nat}
    {w : WStream} {err : Option GoError}
    (h : OpenStream c tr = (some w, err)) : w.hdr = some c.streamHdr := by
  unfold OpenStream at h
  split at h
  · simp at h
  · split at h
    · simp at h
    · simp only [Prod.mk.injEq, Option.some.injEq] at h
      rw [← h.1]

/-- Twin of OpenStream_some for OpenStreamSync. -/
theorem OpenStreamSync_some {c : ConnState} {tr : Except GoError Nat}
    {w : WStream} {err : Option GoError}
    (h : OpenStreamSync c tr = (some w, err)) : w.hdr = some c.streamHdr := by
  unfold OpenStreamSync at h
  split at h
  · simp at h
  · split at h
    · simp at h
    · simp only [Prod.mk.injEq, Option.some.injEq] at h
      rw [← h.1]

/-- Twin of OpenStream_some for OpenUniStream: the header is the
unidirectional one. -/
theorem OpenUniStream_some {c : ConnState} {tr : Except GoError Nat}
    {w : WStream} {err : Option GoError}
    (h : OpenUniStream c tr = (some w, err)) : w.hdr = some c.uniStreamHdr := by
  unfold OpenUniStream at h
  split at h
  · simp at h
  · split at h
    · simp at h
    · simp only [Prod.mk.injEq, Option.some.injEq] at h
      rw [← h.1]

/-- Twin of OpenStream_some for OpenUniStreamSync. -/
theorem OpenUniStreamSync_some {c : ConnState} {tr : Except GoError Nat}
    {w : WStream} {err : Option GoError}
    (h : OpenUniStreamSync c tr = (some w, err)) :
    w.hdr = some c.uniStreamHdr := by
  unfold OpenUniStreamSync at h
  split at h
  · simp at h
  · split at h
    · simp at h
    · simp only [Prod.mk.injEq, Option.some.injEq] at h
      rw [← h.1]

/-- A single step taken from a closed session leaves the closed flag,
the terminal error and the lifetime context untouched; in particular
the monitor step cannot fire again. -/
theorem Step_fromClosed {c c' : ConnState} (h : Step c c')
    (hc : c.closed = true) :
    c'.closed = true ∧ c'.closeErr = c.closeErr ∧ c'.ctxDone = c.ctxDone := by
  cases h with
  | add str => exact ⟨hc, rfl, rfl⟩
  | addUni str => exact ⟨hc, rfl, rfl⟩
  | accept ce wakes r c' hacc =>
    obtain ⟨h1, h2, h3, -⟩ := AcceptStream_fields hacc
    exact ⟨h1.trans hc, h2, h3⟩
  | acceptUni ce wakes r c' hacc =>
    obtain ⟨h1, h2, h3, -⟩ := AcceptUniStream_fields hacc
    exact ⟨h1.trans hc, h2, h3⟩
  | openOp => exact ⟨hc, rfl, rfl⟩
  | closeCall => exact ⟨hc, rfl, rfl⟩
  | monitor reads hop => rw [hop] at hc; exact absurd hc (by simp)

/-- No step ever rewrites the precomputed headers or the session
identifier. -/
theorem Step_hdrs {c c' : ConnState} (h : Step c c') :
    c'.streamHdr = c.streamHdr ∧ c'.uniStreamHdr = c.uniStreamHdr ∧
    c'.sessionID = c.sessionID := by
  cases h with
  | add str => exact ⟨rfl, rfl, rfl⟩
  | addUni str => exact ⟨rfl, rfl, rfl⟩
  | accept ce wakes r c' hacc =>
    obtain ⟨-, -, -, h4, h5, h6, -⟩ := AcceptStream_fields hacc
    exact ⟨h4, h5, h6⟩
  | acceptUni ce wakes r c' hacc =>
    obtain ⟨-, -, -, h4, h5, h6, -⟩ := AcceptUniStream_fields hacc
    exact ⟨h4, h5, h6⟩
  | openOp => exact ⟨rfl, rfl, rfl⟩
  | closeCall => exact ⟨rfl, rfl, rfl⟩
  | monitor reads hop =>
    rcases handleConn_eq c reads with he | ⟨e, he⟩ <;> rw [he] <;>
      exact ⟨rfl, rfl, rfl⟩

/-- Header and identifier preservation along any execution. -/
theorem ReflTransGen_hdrs {c c' : ConnState}
    (h : Relation.ReflTransGen Step c c') :
    c'.streamHdr = c.streamHdr ∧ c'.uniStreamHdr = c.uniStreamHdr ∧
    c'.sessionID = c.sessionID := by
  induction h with
  | refl => exact ⟨rfl, rfl, rfl⟩
  | tail hab hbc ih =>
    obtain ⟨i1, i2, i3⟩ := ih
    obtain ⟨s1, s2, s3⟩ := Step_hdrs hbc
    exact ⟨s1.trans i1, s2.trans i2, s3.trans i3⟩

/-- Every reachable state satisfies the invariant. -/
theorem Reachable_inv {c : ConnState} (h : Reachable c) : Inv c := by
  obtain ⟨sid, c₀, h₀, hsteps⟩ := h
  have hinv₀ : Inv c₀ := by
    obtain ⟨-, hctx, -, hcl, -⟩ := newConn_fields h₀
    exact ⟨fun hc => absurd hc (by rw [hcl]; simp),
           fun hc => absurd hc (by rw [hctx]; simp)⟩
  induction hsteps with
  | refl => exact hinv₀
  | tail hab hbc ih => exact Step_inv hbc ih

/-- Pushing a list of streams appends it to the queue in order and
touches neither the closed flag nor the unidirectional side. -/
theorem addStreams_fields (strs : List Nat) : ∀ c : ConnState,
    (addStreams c strs).acceptQueue = c.acceptQueue ++ strs ∧
    (addStreams c strs).closed = c.closed ∧
    (addStreams c strs).closeErr = c.closeErr ∧
    (addStreams c strs).ctxDone = c.ctxDone ∧
    (addStreams c strs).acceptUniQueue = c.acceptUniQueue ∧
    (addStreams c strs).acceptUniChan = c.acceptUniChan := by
  induction strs with
  | nil => intro c; simp [addStreams]
  | cons s ss ih =>
    intro c
    have hs : addStreams c (s :: ss) = addStreams (addStream c s) ss := rfl
    obtain ⟨i1, i2, i3, i4, i5, i6⟩ := ih (addStream c s)
    rw [hs]
    refine ⟨?_, i2, i3, i4, i5, i6⟩
    rw [i1]
    simp [addStream]

/-- Unidirectional twin of addStreams_fields. -/
theorem addUniStreams_fields (strs : List Nat) : ∀ c : ConnState,
    (addUniStreams c strs).acceptUniQueue = c.acceptUniQueue ++ strs ∧
    (addUniStreams c strs).closed = c.closed ∧
    (addUniStreams c strs).closeErr = c.closeErr ∧
    (addUniStreams c strs).ctxDone = c.ctxDone ∧
    (addUniStreams c strs).acceptQueue = c.acceptQueue ∧
    (addUniStreams c strs).acceptChan = c.acceptChan := by
  induction strs with
  | nil => intro c; simp [addUniStreams]
  | cons s ss ih =>
    intro c
    have hs : addUniStreams c (s :: ss) = addUniStreams (addUniStream c s) ss := rfl
    obtain ⟨i1, i2, i3, i4, i5, i6⟩ := ih (addUniStream c s)
    rw [hs]
    refine ⟨?_, i2, i3, i4, i5, i6⟩
    rw [i1]
    simp [addUniStream]

/-- Emptying the queue field of a state whose queue is already empty is
the identity. -/
theorem ConnState_eta_queue {c : ConnState} (h : c.acceptQueue = []) :
    { c with acceptQueue := ([] : List Nat) } = c := by
  cases c
  simp only at h
  rw [h]

/-- Unidirectional twin of ConnState_eta_queue. -/
theorem ConnState_eta_uniQueue {c : ConnState} (h : c.acceptUniQueue = []) :
    { c with acceptUniQueue := ([] : List Nat) } = c := by
  cases c
  simp only at h
  rw [h]

/-- Draining an open session whose queue holds q with q.length accept
calls returns exactly the elements of q, wrapped, in order, and leaves
the queue empty and everything else unchanged. -/
theorem acceptLoop_drain (ce : GoError) : ∀ (q : List Nat) (c : ConnState),
    c.closed = false → c.acceptQueue = q →
    (acceptLoop ce q.length c).1 =
      q.map (fun s => { raw := s, hdr := none }) ∧
    (acceptLoop ce q.length c).2 = { c with acceptQueue := [] } := by
  intro q
  induction q with
  | nil =>
    intro c h1 h2
    exact ⟨rfl, (ConnState_eta_queue h2).symm⟩
  | cons s rest ih =>
    intro c h1 h2
    have hpop := acceptNow_pop h1 h2
    have hunf : acceptLoop ce (s :: rest).length c =
        ({ raw := s, hdr := none } ::
           (acceptLoop ce rest.length { c with acceptQueue := rest }).1,
         (acceptLoop ce rest.length { c with acceptQueue := rest }).2) := by
      show acceptLoop ce (rest.length + 1) c = _
      rw [show acceptLoop ce (rest.length + 1) c =
          match AcceptStream ce c [] with
          | some ((some s, _), c') =>
              let r := acceptLoop ce rest.length c'
              (s :: r.1, r.2)
          | some ((none, _), c') => acceptLoop ce rest.length c'
          | none => ([], c) from rfl]
      rw [AcceptStream_nil, hpop]
    obtain ⟨i1, i2⟩ := ih { c with acceptQueue := rest } h1 rfl
    rw [hunf, i1, i2]
    exact ⟨rfl, rfl⟩

/-- Unidirectional twin of acceptLoop_drain. -/
theorem acceptUniLoop_drain (ce : GoError) : ∀ (q : List Nat) (c : ConnState),
    c.closed = false → c.acceptUniQueue = q →
    (acceptUniLoop ce q.length c).1 = q ∧
    (acceptUniLoop ce q.length c).2 = { c with acceptUniQueue := [] } := by
  intro q
  induction q with
  | nil =>
    intro c h1 h2
    exact ⟨rfl, (ConnState_eta_uniQueue h2).symm⟩
  | cons s rest ih =>
    intro c h1 h2
    have hpop := acceptUniNow_pop h1 h2
    have hunf : acceptUniLoop ce (s :: rest).length c =
        (s :: (acceptUniLoop ce rest.length { c with acceptUniQueue := rest }).1,
         (acceptUniLoop ce rest.length { c with acceptUniQueue := rest }).2) := by
      show acceptUniLoop ce (rest.length + 1) c = _
      rw [show acceptUniLoop ce (rest.length + 1) c =
          match AcceptUniStream ce c [] with
          | some ((some s, _), c') =>
              let r := acceptUniLoop ce rest.length c'
              (s :: r.1, r.2)
          | some ((none, _), c') => acceptUniLoop ce rest.length c'
          | none => ([], c) from rfl]
      rw [AcceptUniStream_nil, hpop]
    obtain ⟨i1, i2⟩ := ih { c with acceptUniQueue := rest } h1 rfl
    rw [hunf, i1, i2]
    exact ⟨rfl, rfl⟩

/-- The non-blocking phase never returns a stream and an error together,
nor neither, provided a closed session has its terminal error set. -/
theorem acceptNow_exclusive {c : ConnState}
    {r : Option WStream × Option GoError} {c' : ConnState}
    (hcl : c.closed = true → c.closeErr.isSome = true)
    (h : acceptNow c = some (r, c')) : (r.1.isSome = true ↔ r.2 = none) := by
  unfold acceptNow at h
  split at h
  · next hc =>
    simp only [Option.some.injEq, Prod.mk.injEq] at h
    obtain ⟨v, hv⟩ := Option.isSome_iff_exists.mp (hcl hc)
    rw [← h.1, hv]
    simp
  · split at h
    · simp only [Option.some.injEq, Prod.mk.injEq] at h
      rw [← h.1]
      simp
    · exact absurd h (by simp)

/-- Unidirectional twin of acceptNow_exclusive. -/
theorem acceptUniNow_exclusive {c : ConnState}
    {r : Option Nat × Option GoError} {c' : ConnState}
    (hcl : c.closed = true → c.closeErr.isSome = true)
    (h : acceptUniNow c = some (r, c')) : (r.1.isSome = true ↔ r.2 = none) := by
  unfold acceptUniNow at h
  split at h
  · next hc =>
    simp only [Option.some.injEq, Prod.mk.injEq] at h
    obtain ⟨v, hv⟩ := Option.isSome_iff_exists.mp (hcl hc)
    rw [← h.1, hv]
    simp
  · split at h
    · simp only [Option.some.injEq, Prod.mk.injEq] at h
      rw [← h.1]
      simp
    · exact absurd h (by simp)

/-- Whenever AcceptStream returns, exactly one of the stream and the
error is present, given the state invariant's two error facts. -/
theorem AcceptStream_exclusive {ce : GoError} {wakes : List Wake}
    {c : ConnState} {r : Option WStream × Option GoError} {c' : ConnState}
    (hcl : c.closed = true → c.closeErr.isSome = true)
    (hctx : c.ctxDone = true → c.closed = true)
    (h : AcceptStream ce c wakes = some (r, c')) :
    (r.1.isSome = true ↔ r.2 = none) := by
  induction wakes generalizing c with
  | nil =>
    rw [AcceptStream_nil] at h
    exact acceptNow_exclusive hcl h
  | cons w ws ih =>
    cases hn : acceptNow c with
    | some r0 =>
      rw [AcceptStream_now ce c w ws r0 hn] at h
      simp only [Option.some.injEq] at h
      rw [h] at hn
      exact acceptNow_exclusive hcl hn
    | none =>
      have hop : c.closed = false := by
        cases hcc : c.closed
        · rfl
        · rw [acceptNow_closed hcc] at hn
          exact absurd hn (by simp)
      cases w with
      | sessionDone =>
        rw [AcceptStream_blockedDone ce c ws hn] at h
        split at h
        · next hguard =>
          rw [hctx hguard] at hop
          exact absurd hop (by simp)
        · exact absurd h (by simp)
      | callerCancel =>
        rw [AcceptStream_blockedCancel ce c ws hn] at h
        simp only [Option.some.injEq, Prod.mk.injEq] at h
        rw [← h.1]
        simp
      | notify =>
        rw [AcceptStream_blockedNotify ce c ws hn] at h
        split at h
        · refine ih ?_ ?_ h
          · exact hcl
          · exact hctx
        · exact absurd h (by simp)

/-- Unidirectional twin of AcceptStream_exclusive. -/
theorem AcceptUniStream_exclusive {ce : GoError} {wakes : List Wake}
    {c : ConnState} {r : Option Nat × Option GoError} {c' : ConnState}
    (hcl : c.closed = true → c.closeErr.isSome = true)
    (hctx : c.ctxDone = true → c.closed = true)
    (h : AcceptUniStream ce c wakes = some (r, c')) :
    (r.1.isSome = true ↔ r.2 = none) := by
  induction wakes generalizing c with
  | nil =>
    rw [AcceptUniStream_nil] at h
    exact acceptUniNow_exclusive hcl h
  | cons w ws ih =>
    cases hn : acceptUniNow c with
    | some r0 =>
      rw [AcceptUniStream_now ce c w ws r0 hn] at h
      simp only [Option.some.injEq] at h
      rw [h] at hn
      exact acceptUniNow_exclusive hcl hn
    | none =>
      have hop : c.closed = false := by
        cases hcc : c.closed
        · rfl
        · rw [acceptUniNow_closed hcc] at hn
          exact absurd hn (by simp)
      cases w with
      | sessionDone =>
        rw [AcceptUniStream_blockedDone ce c ws hn] at h
        split at h
        · next hguard =>
          rw [hctx hguard] at hop
          exact absurd hop (by simp)
        · exact absurd h (by simp)
      | callerCancel =>
        rw [AcceptUniStream_blockedCancel ce c ws hn] at h
        simp only [Option.some.injEq, Prod.mk.injEq] at h
        rw [← h.1]
        simp
      | notify =>
        rw [AcceptUniStream_blockedNotify ce c ws hn] at h
        split at h
        · refine ih ?_ ?_ h
          · exact hcl
          · exact hctx
        · exact absurd h (by simp)

/-- OpenStream returns exactly one of stream and error, given that a
closed session has its terminal error set. -/
theorem OpenStream_exclusive {c : ConnState} {tr : Except GoError Nat}
    (hcl : c.closed = true → c.closeErr.isSome = true) :
    ((OpenStream c tr).1.isSome = true ↔ (OpenStream c tr).2 = none) := by
  unfold OpenStream isClosed
  cases hc : c.closed with
  | true =>
    obtain ⟨v, hv⟩ := Option.isSome_iff_exists.mp (hcl hc)
    simp [hv]
  | false => cases tr <;> simp

/-- Twin of OpenStream_exclusive for OpenStreamSync. -/
theorem OpenStreamSync_exclusive {c : ConnState} {tr : Except GoError Nat}
    (hcl : c.closed = true → c.closeErr.isSome = true) :
    ((OpenStreamSync c tr).1.isSome = true ↔ (OpenStreamSync c tr).2 = none) := by
  unfold OpenStreamSync isClosed
  cases hc : c.closed with
  | true =>
    obtain ⟨v, hv⟩ := Option.isSome_iff_exists.mp (hcl hc)
    simp [hv]
  | false => cases tr <;> simp

/-- Twin of OpenStream_exclusive for OpenUniStream. -/
theorem OpenUniStream_exclusive {c : ConnState} {tr : Except GoError Nat}
    (hcl : c.closed = true → c.closeErr.isSome = true) :
    ((OpenUniStream c tr).1.isSome = true ↔ (OpenUniStream c tr).2 = none) := by
  unfold OpenUniStream isClosed
  cases hc : c.closed with
  | true =>
    obtain ⟨v, hv⟩ := Option.isSome_iff_exists.mp (hcl hc)
    simp [hv]
  | false => cases tr <;> simp

/-- Twin of OpenStream_exclusive for OpenUniStreamSync. -/
theorem OpenUniStreamSync_exclusive {c : ConnState} {tr : Except GoError Nat}
    (hcl : c.closed = true → c.closeErr.isSome = true) :
    ((OpenUniStreamSync c tr).1.isSome = true ↔
      (OpenUniStreamSync c tr).2 = none) := by
  unfold OpenUniStreamSync isClosed
  cases hc : c.closed with
  | true =>
    obtain ⟨v, hv⟩ := Option.isSome_iff_exists.mp (hcl hc)
    simp [hv]
  | false => cases tr <;> simp

/-- Claim C1: for every sequence of streams pushed with addStream
(resp. addUniStream) into one accept queue of an open session whose
queue starts empty, followed by as many AcceptStream
(resp. AcceptUniStream) calls, the accept calls return the pushed
streams in push order, each exactly once (no duplication, no loss,
FIFO), and the queue ends empty. -/
theorem accept_queue_fifo_exact (c : ConnState) (ce : GoError)
    (strs ustrs : List Nat) (h1 : c.closed = false)
    (h2 : c.acceptQueue = []) (h3 : c.acceptUniQueue = []) :
    (acceptLoop ce strs.length (addStreams c strs)).1 =
      strs.map (fun s => { raw := s, hdr := none }) ∧
    (acceptLoop ce strs.length (addStreams c strs)).2.acceptQueue = [] ∧
    (acceptUniLoop ce ustrs.length (addUniStreams c ustrs)).1 = ustrs ∧
    (acceptUniLoop ce ustrs.length
      (addUniStreams c ustrs)).2.acceptUniQueue = [] := by
  obtain ⟨a1, a2, -⟩ := addStreams_fields strs c
  obtain ⟨b1, b2, -⟩ := addUniStreams_fields ustrs c
  have hq : (addStreams c strs).acceptQueue = strs := by rw [a1, h2]; simp
  have hqu : (addUniStreams c ustrs).acceptUniQueue = ustrs := by
    rw [b1, h3]; simp
  have hc1 : (addStreams c strs).closed = false := by rw [a2, h1]
  have hc2 : (addUniStreams c ustrs).closed = false := by rw [b2, h1]
  have d1 := acceptLoop_drain ce strs (addStreams c strs) hc1 hq
  have d2 := acceptUniLoop_drain ce ustrs (addUniStreams c ustrs) hc2 hqu
  exact ⟨d1.1, by rw [d1.2], d2.1, by rw [d2.2]⟩

/-- Witness for claim C1 on the fresh session conn17 with three
bidirectional and two unidirectional pushes. -/
theorem accept_queue_fifo_exact_witness :
    (acceptLoop GoError.ctxCanceled 3 (addStreams conn17 [1, 2, 3])).1 =
      [{ raw := 1, hdr := none }, { raw := 2, hdr := none },
       { raw := 3, hdr := none }] ∧
    (acceptLoop GoError.ctxCanceled 3
      (addStreams conn17 [1, 2, 3])).2.acceptQueue = [] ∧
    (acceptUniLoop GoError.ctxCanceled 2 (addUniStreams conn17 [7, 9])).1 =
      [7, 9] ∧
    (acceptUniLoop GoError.ctxCanceled 2
      (addUniStreams conn17 [7, 9])).2.acceptUniQueue = [] :=
  accept_queue_fifo_exact conn17 GoError.ctxCanceled [1, 2, 3] [7, 9]
    rfl rfl rfl

/-- Claim C2: for a session with identifier sid the precomputed
bidirectional header equals varint(tagBidi) followed by varint(sid) and
the unidirectional header equals varint(tagUni) followed by
varint(sid), both computed once at construction; no step of the session
ever changes them, and every stream successfully opened in a direction
carries exactly that byte sequence. -/
theorem header_prefix_correct (sid : Nat) (c : ConnState)
    (h : newConn sid = some c) :
    ∃ ts, quicvarintWrite sid = some ts ∧
      quicvarintWrite webTransportFrameType = some [64, 65] ∧
      quicvarintWrite webTransportUniStreamType = some [64, 84] ∧
      c.streamHdr = [64, 65] ++ ts ∧ c.uniStreamHdr = [64, 84] ++ ts ∧
      ∀ c', Relation.ReflTransGen Step c c' →
        c'.streamHdr = [64, 65] ++ ts ∧ c'.uniStreamHdr = [64, 84] ++ ts ∧
        (∀ tr w err, OpenStream c' tr = (some w, err) →
          w.hdr = some ([64, 65] ++ ts)) ∧
        (∀ tr w err, OpenStreamSync c' tr = (some w, err) →
          w.hdr = some ([64, 65] ++ ts)) ∧
        (∀ tr w err, OpenUniStream c' tr = (some w, err) →
          w.hdr = some ([64, 84] ++ ts)) ∧
        (∀ tr w err, OpenUniStreamSync c' tr = (some w, err) →
          w.hdr = some ([64, 84] ++ ts)) := by
  obtain ⟨-, -, -, -, -, -, -, -, ts, hts, hb, hu⟩ := newConn_fields h
  refine ⟨ts, hts, by decide, by decide, hb, hu, ?_⟩
  intro c' hsteps
  obtain ⟨p1, p2, -⟩ := ReflTransGen_hdrs hsteps
  have e1 : c'.streamHdr = [64, 65] ++ ts := by rw [p1, hb]
  have e2 : c'.uniStreamHdr = [64, 84] ++ ts := by rw [p2, hu]
  refine ⟨e1, e2, ?_, ?_, ?_, ?_⟩
  · intro tr w err hw; rw [OpenStream_some hw, e1]
  · intro tr w err hw; rw [OpenStreamSync_some hw, e1]
  · intro tr w err hw; rw [OpenUniStream_some hw, e2]
  · intro tr w err hw; rw [OpenUniStreamSync_some hw, e2]

/-- Witness for claim C2 on session identifier 17. -/
theorem header_prefix_correct_witness :
    conn17.streamHdr = [64, 65] ++ [17] ∧
    conn17.uniStreamHdr = [64, 84] ++ [17] ∧
    ∀ w err, OpenStream conn17 (Except.ok 3) = (some w, err) →
      w.hdr = some ([64, 65] ++ [17]) := by
  obtain ⟨ts, hts, -, -, hb, hu, hall⟩ := header_prefix_correct 17 conn17 rfl
  have hts17 : ts = [17] := by
    have h17 : quicvarintWrite 17 = some [17] := by decide
    rw [h17] at hts
    exact (Option.some.inj hts).symm
  subst hts17
  obtain ⟨-, -, g3, -⟩ := hall conn17 Relation.ReflTransGen.refl
  exact ⟨hb, hu, fun w err hw => g3 (Except.ok 3) w err hw⟩

/-- Claim C3: after the control-stream read returns an error the
session records a single terminal cause, and every subsequently
invoked AcceptStream, AcceptUniStream, OpenStream, OpenStreamSync,
OpenUniStream and OpenUniStreamSync call returns that same error
value, on both queues and in both directions. -/
theorem terminal_error_uniform (c s' : ConnState) (ce e : GoError)
    (bufs : List (List Nat)) (b : List Nat) (wakes : List Wake)
    (tr trs tru trus : Except GoError Nat)
    (hs : s' = handleConn c (bufs.map (fun x => (x, none)) ++ [(b, some e)])) :
    ∃ terminal : GoError, s'.closeErr = some terminal ∧
      AcceptStream ce s' wakes = some ((none, some terminal), s') ∧
      AcceptUniStream ce s' wakes = some ((none, some terminal), s') ∧
      OpenStream s' tr = (none, some terminal) ∧
      OpenStreamSync s' trs = (none, some terminal) ∧
      OpenUniStream s' tru = (none, some terminal) ∧
      OpenUniStreamSync s' trus = (none, some terminal) := by
  rw [handleConn_error] at hs
  subst hs
  refine ⟨GoError.wrapped sessionClosedPfx e, rfl, ?_, ?_, ?_, ?_, ?_, ?_⟩
  · exact AcceptStream_ofClosed ce wakes rfl
  · exact AcceptUniStream_ofClosed ce wakes rfl
  · simp [OpenStream, isClosed]
  · simp [OpenStreamSync, isClosed]
  · simp [OpenUniStream, isClosed]
  · simp [OpenUniStreamSync, isClosed]

/-- Witness for claim C3: a session closed by an EOF on the control
stream rejects an OpenStream call with the wrapped terminal error. -/
theorem terminal_error_uniform_witness :
    OpenStream (handleConn conn17 [([], some GoError.eof)]) (Except.ok 3) =
      (none, some (GoError.wrapped sessionClosedPfx GoError.eof)) := by
  obtain ⟨t, h1, -, -, h4, -⟩ :=
    terminal_error_uniform conn17 _ GoError.ctxCanceled GoError.eof [] [] []
      (Except.ok 3) (Except.ok 3) (Except.ok 3) (Except.ok 3) rfl
  have ht : t = GoError.wrapped sessionClosedPfx GoError.eof :=
    Option.some.inj (h1.symm.trans rfl)
  rw [ht] at h4
  exact h4

/-- Claim C4: a push with addStream on an open session appends the
stream to the queue and leaves a notification token in the capacity-1
channel; draining the queue afterwards delivers the pushed stream as
the last element, so the stream is not lost even though no accept call
was pending when it was pushed. -/
theorem push_while_idle_not_lost (c : ConnState) (ce : GoError) (p : Nat)
    (h : c.closed = false) :
    (addStream c p).acceptQueue = c.acceptQueue ++ [p] ∧
    (addStream c p).acceptChan = true ∧
    (acceptLoop ce (c.acceptQueue.length + 1) (addStream c p)).1 =
      (c.acceptQueue ++ [p]).map (fun s => { raw := s, hdr := none }) ∧
    ((acceptLoop ce (c.acceptQueue.length + 1) (addStream c p)).1).getLast? =
      some { raw := p, hdr := none } := by
  have hq : (addStream c p).acceptQueue = c.acceptQueue ++ [p] := rfl
  have hcl : (addStream c p).closed = false := h
  have hd := acceptLoop_drain ce (c.acceptQueue ++ [p]) (addStream c p) hcl hq
  have hlen : (c.acceptQueue ++ [p]).length = c.acceptQueue.length + 1 := by
    simp
  rw [hlen] at hd
  refine ⟨rfl, rfl, hd.1, ?_⟩
  rw [hd.1, List.map_append]
  simp

/-- Witness for claim C4: push stream 5 on the idle session conn17,
then accept once. -/
theorem push_while_idle_not_lost_witness :
    (addStream conn17 5).acceptQueue = [] ++ [5] ∧
    (addStream conn17 5).acceptChan = true ∧
    (acceptLoop GoError.ctxCanceled 1 (addStream conn17 5)).1 =
      [{ raw := 5, hdr := none }] ∧
    ((acceptLoop GoError.ctxCanceled 1 (addStream conn17 5)).1).getLast? =
      some { raw := 5, hdr := none } :=
  push_while_idle_not_lost conn17 GoError.ctxCanceled 5 rfl

/-- Claim C5 counterexample: on the open session conn17 a Close call
returns nil and does not transition the session to the closed state,
and a stream pushed after the Close call is still accepted normally
instead of failing with a terminal error: Close does not close the
session. -/
theorem close_noop_counterexample :
    Close conn17 = (none, conn17) ∧
    isClosed (Close conn17).2 = false ∧
    AcceptStream GoError.ctxCanceled (addStream (Close conn17).2 5) [] =
      some ((some { raw := 5, hdr := none }, none),
            { conn17 with acceptChan := true }) := by
  decide

/-- Claim C5 (amended): Close is a no-op: it returns nil and leaves the
session state unchanged, so it never transitions the session to the
closed state; that transition happens only when the control-stream
read in handleConn fails. -/
theorem close_is_noop (c : ConnState) :
    Close c = (none, c) ∧ isClosed (Close c).2 = isClosed c :=
  ⟨rfl, rfl⟩

/-- Claim C6: when the caller-supplied cancellation fires during an
AcceptStream or AcceptUniStream call on an open session whose queue is
empty, the call returns the caller's context error — which is never of
the wrapped shape that every session-closed terminal error has — and
returns the state unchanged: no queued stream is consumed and no field
is modified. -/
theorem cancel_affects_only_caller (c : ConnState) (ce : GoError)
    (h : c.closed = false) (hq : c.acceptQueue = [])
    (hqu : c.acceptUniQueue = [])
    (hce : ce = GoError.ctxCanceled ∨ ce = GoError.ctxDeadlineExceeded) :
    AcceptStream ce c [Wake.callerCancel] = some ((none, some ce), c) ∧
    AcceptUniStream ce c [Wake.callerCancel] = some ((none, some ce), c) ∧
    ∀ msg cause, ce ≠ GoError.wrapped msg cause := by
  refine ⟨AcceptStream_blockedCancel ce c [] (acceptNow_blocked h hq),
          AcceptUniStream_blockedCancel ce c [] (acceptUniNow_blocked h hqu),
          ?_⟩
  intro msg cause hco
  rcases hce with he | he <;> rw [he] at hco <;> exact GoError.noConfusion hco

/-- Witness for claim C6 on the idle session conn17 with a cancelled
caller context. -/
theorem cancel_affects_only_caller_witness :
    AcceptStream GoError.ctxCanceled conn17 [Wake.callerCancel] =
      some ((none, some GoError.ctxCanceled), conn17) :=
  (cancel_affects_only_caller conn17 GoError.ctxCanceled rfl rfl rfl
    (Or.inl rfl)).1

/-- Claim C7: on a closed session each of the four open operations
fails at once with the session's terminal error, whatever the
transport would have answered; on an open session a transport error is
returned unchanged, with no stream. -/
theorem open_error_propagation (c1 c2 : ConnState) (e : GoError)
    (h1 : c1.closed = true) (h2 : c2.closed = false) :
    (∀ tr, OpenStream c1 tr = (none, c1.closeErr)) ∧
    (∀ tr, OpenStreamSync c1 tr = (none, c1.closeErr)) ∧
    (∀ tr, OpenUniStream c1 tr = (none, c1.closeErr)) ∧
    (∀ tr, OpenUniStreamSync c1 tr = (none, c1.closeErr)) ∧
    OpenStream c2 (Except.error e) = (none, some e) ∧
    OpenStreamSync c2 (Except.error e) = (none, some e) ∧
    OpenUniStream c2 (Except.error e) = (none, some e) ∧
    OpenUniStreamSync c2 (Except.error e) = (none, some e) := by
  refine ⟨?_, ?_, ?_, ?_, ?_, ?_, ?_, ?_⟩
  · intro tr; simp [OpenStream, isClosed, h1]
  · intro tr; simp [OpenStreamSync, isClosed, h1]
  · intro tr; simp [OpenUniStream, isClosed, h1]
  · intro tr; simp [OpenUniStreamSync, isClosed, h1]
  · simp [OpenStream, isClosed, h2]
  · simp [OpenStreamSync, isClosed, h2]
  · simp [OpenUniStream, isClosed, h2]
  · simp [OpenUniStreamSync, isClosed, h2]

/-- Witness for claim C7: a closed session rejects an open with its
terminal error; the open session conn17 propagates a transport error
unchanged. -/
theorem open_error_propagation_witness :
    OpenStream (handleConn conn17 [([], some GoError.eof)]) (Except.ok 3) =
      (none, (handleConn conn17 [([], some GoError.eof)]).closeErr) ∧
    OpenUniStream conn17 (Except.error (GoError.transport 7)) =
      (none, some (GoError.transport 7)) :=
  ⟨(open_error_propagation (handleConn conn17 [([], some GoError.eof)])
      conn17 (GoError.transport 7) rfl rfl).1 (Except.ok 3),
   (open_error_propagation (handleConn conn17 [([], some GoError.eof)])
      conn17 (GoError.transport 7) rfl rfl).2.2.2.2.2.2.1⟩

/-- Claim C8: once the closed channel has been closed, every further
execution of the step relation keeps isClosed true (the session never
returns to the open state), never fires the closed transition again
(the monitor step is disabled on closed states), and never overwrites
the terminal error or the lifetime-context flag. -/
theorem closure_irreversible (c c' : ConnState)
    (hsteps : Relation.ReflTransGen Step c c') (hc : c.closed = true) :
    isClosed c' = true ∧ c'.closeErr = c.closeErr ∧ c'.ctxDone = c.ctxDone := by
  induction hsteps with
  | refl => exact ⟨hc, rfl, rfl⟩
  | tail hab hbc ih =>
    obtain ⟨i1, i2, i3⟩ := ih
    obtain ⟨s1, s2, s3⟩ := Step_fromClosed hbc i1
    exact ⟨s1, s2.trans i2, s3.trans i3⟩

/-- Witness for claim C8 at the closed session obtained from conn17 by
an EOF on the control stream. -/
theorem closure_irreversible_witness :
    isClosed (handleConn conn17 [([], some GoError.eof)]) = true ∧
    (handleConn conn17 [([], some GoError.eof)]).closeErr =
      (handleConn conn17 [([], some GoError.eof)]).closeErr ∧
    (handleConn conn17 [([], some GoError.eof)]).ctxDone =
      (handleConn conn17 [([], some GoError.eof)]).ctxDone :=
  closure_irreversible _ _ Relation.ReflTransGen.refl rfl

/-- Claim C9: on every reachable state each public accept and open
operation returns exactly one of a stream and an error: the stream is
present precisely when the error is nil; in particular the terminal
error read on the closed path is always non-nil because it is recorded
before the closed channel or the lifetime context can fire. -/
theorem result_exclusive (c : ConnState) (hr : Reachable c) :
    (∀ ce wakes r c', AcceptStream ce c wakes = some (r, c') →
      (r.1.isSome = true ↔ r.2 = none)) ∧
    (∀ ce wakes r c', AcceptUniStream ce c wakes = some (r, c') →
      (r.1.isSome = true ↔ r.2 = none)) ∧
    (∀ tr, ((OpenStream c tr).1.isSome = true ↔
      (OpenStream c tr).2 = none)) ∧
    (∀ tr, ((OpenStreamSync c tr).1.isSome = true ↔
      (OpenStreamSync c tr).2 = none)) ∧
    (∀ tr, ((OpenUniStream c tr).1.isSome = true ↔
      (OpenUniStream c tr).2 = none)) ∧
    (∀ tr, ((OpenUniStreamSync c tr).1.isSome = true ↔
      (OpenUniStreamSync c tr).2 = none)) := by
  obtain ⟨hcl, hctx⟩ := Reachable_inv hr
  exact ⟨fun ce wakes r c' h => AcceptStream_exclusive hcl hctx h,
         fun ce wakes r c' h => AcceptUniStream_exclusive hcl hctx h,
         fun tr => OpenStream_exclusive hcl,
         fun tr => OpenStreamSync_exclusive hcl,
         fun tr => OpenUniStream_exclusive hcl,
         fun tr => OpenUniStreamSync_exclusive hcl⟩

/-- Witness for claim C9 at the reachable fresh session conn17. -/
theorem result_exclusive_witness :
    ((OpenStream conn17 (Except.ok 3)).1.isSome = true ↔
      (OpenStream conn17 (Except.ok 3)).2 = none) :=
  (result_exclusive conn17
    ⟨17, conn17, rfl, Relation.ReflTransGen.refl⟩).2.2.1 (Except.ok 3)

/-- Claim C10: when the session closes because the control-stream read
returned error e, the recorded terminal error is the wrap of e with
the message prefix "WebTransport session closed: " — unwrapping
recovers e and the message is the prefix followed by the message of
e — and this one value is what every subsequent failing operation
returns. -/
theorem terminal_error_wraps_cause (c s' : ConnState) (ce e : GoError)
    (bufs : List (List Nat)) (b : List Nat) (wakes : List Wake)
    (tr trs tru trus : Except GoError Nat)
    (hs : s' = handleConn c (bufs.map (fun x => (x, none)) ++ [(b, some e)])) :
    s'.closeErr = some (GoError.wrapped sessionClosedPfx e) ∧
    unwrapGoError (GoError.wrapped sessionClosedPfx e) = some e ∧
    goErrorMessage (GoError.wrapped sessionClosedPfx e) =
      "WebTransport session closed: " ++ goErrorMessage e ∧
    AcceptStream ce s' wakes =
      some ((none, some (GoError.wrapped sessionClosedPfx e)), s') ∧
    AcceptUniStream ce s' wakes =
      some ((none, some (GoError.wrapped sessionClosedPfx e)), s') ∧
    OpenStream s' tr = (none, some (GoError.wrapped sessionClosedPfx e)) ∧
    OpenStreamSync s' trs = (none, some (GoError.wrapped sessionClosedPfx e)) ∧
    OpenUniStream s' tru = (none, some (GoError.wrapped sessionClosedPfx e)) ∧
    OpenUniStreamSync s' trus =
      (none, some (GoError.wrapped sessionClosedPfx e)) := by
  rw [handleConn_error] at hs
  subst hs
  refine ⟨rfl, rfl, rfl, ?_, ?_, ?_, ?_, ?_, ?_⟩
  · exact AcceptStream_ofClosed ce wakes rfl
  · exact AcceptUniStream_ofClosed ce wakes rfl
  · simp [OpenStream, isClosed]
  · simp [OpenStreamSync, isClosed]
  · simp [OpenUniStream, isClosed]
  · simp [OpenUniStreamSync, isClosed]

/-- Witness for claim C10 on the session closed by an EOF. -/
theorem terminal_error_wraps_cause_witness :
    (handleConn conn17 [([], some GoError.eof)]).closeErr =
      some (GoError.wrapped sessionClosedPfx GoError.eof) ∧
    unwrapGoError (GoError.wrapped sessionClosedPfx GoError.eof) =
      some GoError.eof :=
  have h := terminal_error_wraps_cause conn17 _ GoError.ctxCanceled
    GoError.eof [] [] [] (Except.ok 3) (Except.ok 3) (Except.ok 3)
    (Except.ok 3) rfl
  ⟨h.1, h.2.1⟩

end WebTransport
